import Mathlib

/-!
Shallow embedding of `read_tags.py` (blackstream-x/track-parsers), a script
that reads audio tags from local files and prints one tracklist line per
file.  The embedding follows the source module function by function:
constants, the encoding-repair helper, length formatting, glob escaping,
tag normalization and the per-file orchestrator `print_file_tracklist`.
Python exceptions that the source catches are modelled by `Option`
results of the corresponding sub-computations; exceptions the source does
not catch make the whole per-file computation return `none`.
-/

namespace TrackParsers

/-! ### Constants (source lines 46-92) -/

def ELLIPSIS : String := "…"

def EMPTY : String := ""

def MISSING_TAG_PLACEHOLDER : String := "(" ++ ELLIPSIS ++ ")"

def SECONDS_PER_MINUTE : Nat := 60

def SEPARATOR : String := " / "

def TAG_TRACK_NUMBER : String := "TRACKNUMBER"

def TAG_ARTIST : String := "ARTIST"

def TAG_TITLE : String := "TITLE"

def TAG_LENGTH : String := "length"

def REQUIRED_TAGS : List String := [TAG_TRACK_NUMBER, TAG_ARTIST, TAG_TITLE]

/-! ### Encoding repair (`__avoid_latin_1`, source lines 100-104)

`text.encode(LATIN1)` maps every code point `0..255` to the identical
byte and raises `UnicodeEncodeError` (a `UnicodeError`) for anything
larger; `bytes.decode(UTF8)` is Python's strict UTF-8 decoder, raising
`UnicodeDecodeError` (also a `UnicodeError`) on any invalid byte
sequence (stray continuation bytes, overlong forms, surrogates,
code points above U+10FFFF).  Both failure modes are modelled as `none`.
-/

def latin1EncodeChar (c : Char) : Option Nat :=
  if c.toNat ≤ 255 then some c.toNat else none

def latin1Encode : List Char → Option (List Nat)
  | [] => some []
  | c :: rest =>
    match latin1EncodeChar c, latin1Encode rest with
    | some b, some bs => some (b :: bs)
    | _, _ => none

def isUtf8Cont (b : Nat) : Bool := 0x80 ≤ b && b ≤ 0xBF

def utf8Decode : List Nat → Option (List Char)
  | [] => some []
  | b :: rest =>
    if b ≤ 0x7F then
      match utf8Decode rest with
      | some cs => some (Char.ofNat b :: cs)
      | none => none
    else if b ≤ 0xC1 then
      none
    else if b ≤ 0xDF then
      match rest with
      | b2 :: r =>
        if isUtf8Cont b2 then
          match utf8Decode r with
          | some cs => some (Char.ofNat ((b - 0xC0) * 0x40 + (b2 - 0x80)) :: cs)
          | none => none
        else none
      | [] => none
    else if b ≤ 0xEF then
      match rest with
      | b2 :: b3 :: r =>
        let lowOk : Bool :=
          if b = 0xE0 then 0xA0 ≤ b2 && b2 ≤ 0xBF
          else if b = 0xED then 0x80 ≤ b2 && b2 ≤ 0x9F
          else isUtf8Cont b2
        if lowOk && isUtf8Cont b3 then
          match utf8Decode r with
          | some cs =>
            some (Char.ofNat
              ((b - 0xE0) * 0x1000 + (b2 - 0x80) * 0x40 + (b3 - 0x80)) :: cs)
          | none => none
        else none
      | _ => none
    else if b ≤ 0xF4 then
      match rest with
      | b2 :: b3 :: b4 :: r =>
        let lowOk : Bool :=
          if b = 0xF0 then 0x90 ≤ b2 && b2 ≤ 0xBF
          else if b = 0xF4 then 0x80 ≤ b2 && b2 ≤ 0x8F
          else isUtf8Cont b2
        if lowOk && isUtf8Cont b3 && isUtf8Cont b4 then
          match utf8Decode r with
          | some cs =>
            some (Char.ofNat
              ((b - 0xF0) * 0x40000 + (b2 - 0x80) * 0x1000
                + (b3 - 0x80) * 0x40 + (b4 - 0x80)) :: cs)
          | none => none
        else none
      | _ => none
    else none

/-- `__avoid_latin_1(text)`: `text.encode(LATIN1).decode(UTF8)`;
`none` models the `UnicodeError` cases. -/
def avoid_latin_1 (text : String) : Option String :=
  match latin1Encode text.data with
  | none => none
  | some bs =>
    match utf8Decode bs with
    | none => none
    | some cs => some (String.mk cs)

/-- One iteration of the repair loop of source lines 174-179: append
`__avoid_latin_1(tag_part)`, falling back to the original value on
`UnicodeError`. -/
def fixTagPart (tag_part : String) : String :=
  match avoid_latin_1 tag_part with
  | some fixed => fixed
  | none => tag_part

/-- Python `SEPARATOR.join(parts)` (source line 181). -/
def sepJoin : List String → String
  | [] => EMPTY
  | [s] => s
  | s :: rest => s ++ SEPARATOR ++ sepJoin rest

/-! ### Track/total stripping (`PRX_TRACKS_TOTAL.sub`, source lines 73, 170)

`re.compile(r'/.*').sub('', s)` removes every non-overlapping match of
`/.*`; since `.` does not match a newline, this removes, in each line,
everything from that line's first `/` to the end of the line (newlines
themselves are kept).  The boolean argument tracks whether the scanner
is currently inside a match (skipping until end of line). -/

def tracksTotalAux (dropping : Bool) : List Char → List Char
  | [] => []
  | c :: rest =>
    if dropping then
      if c = '\n' then c :: tracksTotalAux false rest
      else tracksTotalAux true rest
    else
      if c = '/' then tracksTotalAux true rest
      else c :: tracksTotalAux false rest

def prxTracksTotalSub (s : String) : String :=
  String.mk (tracksTotalAux false s.data)

/-! ### Glob escaping (`escape_for_glob`, source lines 72, 113-123) -/

def isGlobMagic (c : Char) : Bool := c = '*' || c = '?' || c = '['

/-- `PRX_GLOB_MAGIC.sub(IN_SQUARE_BRACKETS, s)`: wrap each of the
characters matched by `([*?[])` in square brackets. -/
def prxGlobMagicSub : List Char → List Char
  | [] => []
  | c :: rest =>
    if isGlobMagic c then '[' :: c :: ']' :: prxGlobMagicSub rest
    else c :: prxGlobMagicSub rest

/-- `escape_for_glob(pathname)`, parametrized by the platform's
`os.path.splitdrive` (which decomposes a path into drive/volume part and
remainder; on POSIX the drive part is always empty). -/
def escape_for_glob (splitdrive : String → String × String) (pathname : String) :
    String :=
  let parts := splitdrive pathname
  parts.1 ++ String.mk (prxGlobMagicSub parts.2.data)

/-! ### Length formatting (`audio_length`, source lines 86, 107-110) -/

/-- Python `'{0:02d}'.format(n)` for a natural number. -/
def format02d (n : Nat) : String :=
  if n < 10 then "0" ++ toString n else toString n

/-- `audio_length(seconds)`: `divmod(int(seconds), 60)` rendered as
`'{0:02d}:{1:02d}'`. -/
def audio_length (seconds : Nat) : String :=
  format02d (seconds / SECONDS_PER_MINUTE) ++ ":"
    ++ format02d (seconds % SECONDS_PER_MINUTE)

/-! ### Data model

`AudioFile` models a successfully opened `taglib.File`: `tags` is the
tag dictionary (tag name to list of raw string values, first binding
wins on lookup, as for a Python dict) and `length` the duration
attribute, `none` when accessing it raises `AttributeError`
(source lines 184-188). -/

structure AudioFile where
  tags : List (String × List String)
  length : Option Nat

/-- One iteration of the `for single_tag in REQUIRED_TAGS` loop body
(source lines 158-182): result is the display value for the tag and
whether the tag was recorded as missing; `none` models the uncaught
`IndexError` raised by `original_tag[FIRST_INDEX]` when the tag is
present with an empty value list. -/
def processSingleTag (tags : List (String × List String)) (single_tag : String) :
    Option (String × Bool) :=
  match tags.lookup single_tag with
  | none => some (MISSING_TAG_PLACEHOLDER, true)
  | some original_tag =>
    if single_tag = TAG_TRACK_NUMBER then
      match original_tag with
      | [] => none
      | first :: _ => some (prxTracksTotalSub first, false)
    else
      some (sepJoin (original_tag.map fixTagPart), false)

/-- The whole `for single_tag in ...` loop: builds `output_tags` (in
insertion order) and `missing_tags` (in append order). -/
def requiredTagsLoop (tags : List (String × List String)) :
    List String → Option (List (String × String) × List String)
  | [] => some ([], [])
  | single_tag :: rest =>
    (processSingleTag tags single_tag).bind fun vb =>
      (requiredTagsLoop tags rest).bind fun pr =>
        some ((single_tag, vb.1) :: pr.1,
          (if vb.2 then [single_tag] else []) ++ pr.2)

/-- Tag normalization for one opened file (source lines 156-188): the
required-tags loop followed by the `length` try/except.  Returns the
final `output_tags` association list and the `missing_tags` list. -/
def normalize (audio : AudioFile) :
    Option (List (String × String) × List String) :=
  (requiredTagsLoop audio.tags REQUIRED_TAGS).bind fun pr =>
    match audio.length with
    | some seconds =>
      some (pr.1 ++ [(TAG_LENGTH, audio_length seconds)], pr.2)
    | none =>
      some (pr.1 ++ [(TAG_LENGTH, ELLIPSIS)], pr.2 ++ [TAG_LENGTH])

/-- `FS_TRACK.format(output_tags)` (source lines 85-92, 192): the
template `'{0[TRACKNUMBER]}. {0[TITLE]} – {0[ARTIST]} ({0[length]})'`;
a missing key would raise `KeyError` (modelled as `none`). -/
def fsTrackFormat (output_tags : List (String × String)) : Option String :=
  (output_tags.lookup TAG_TRACK_NUMBER).bind fun tr =>
    (output_tags.lookup TAG_TITLE).bind fun ti =>
      (output_tags.lookup TAG_ARTIST).bind fun ar =>
        (output_tags.lookup TAG_LENGTH).bind fun le =>
          some (tr ++ ". " ++ ti ++ " – " ++ ar ++ " (" ++ le ++ ")")

/-! ### Per-file orchestration (`print_file_tracklist`, source lines 137-193) -/

/-- One emitted `logging` call, with its template arguments. -/
inductive LogEntry where
  | logError (msg : String)
  | infoUnsupported (shortened : String)
  | warningMissing (shortened : String) (missing : List String)
deriving DecidableEq

/-- POSIX `os.path.basename`: everything after the last slash. -/
def basename (p : String) : String :=
  String.mk ((p.data.reverse.takeWhile (fun c => c != '/')).reverse)

/-- `os.path.join(ELLIPSIS, os.path.basename(given_file))`
(source lines 140-141). -/
def shortenedFilename (p : String) : String :=
  ELLIPSIS ++ "/" ++ basename p

/-- One input path as the script sees it: `opened` is the outcome of
`taglib.File(given_file)` (`Except.error` carries the `OSError`
message), `isFile` the value of `os.path.isfile(given_file)`. -/
structure PathInput where
  path : String
  opened : Except String AudioFile
  isFile : Bool

/-- `print_file_tracklist(given_file)`: result is `none` when an
uncaught exception escapes, otherwise the list of log entries in
emission order together with the printed line (`none` when nothing is
printed). -/
def print_file_tracklist (inp : PathInput) :
    Option (List LogEntry × Option String) :=
  match inp.opened with
  | Except.error os_error =>
    some (LogEntry.logError os_error ::
      (if inp.isFile then [LogEntry.infoUnsupported (shortenedFilename inp.path)]
       else []),
      none)
  | Except.ok audio_data =>
    (normalize audio_data).bind fun pr =>
      (fsTrackFormat pr.1).bind fun line =>
        some ((if pr.2.isEmpty then []
               else [LogEntry.warningMissing (shortenedFilename inp.path) pr.2]),
          some line)

/-- The driver loop over the resolved path arguments (source lines
236-243): processes each path in order; an uncaught exception from one
path aborts the run (`none`). -/
def processPaths : List PathInput → Option (List (List LogEntry × Option String))
  | [] => some []
  | inp :: rest =>
    (print_file_tracklist inp).bind fun r =>
      (processPaths rest).bind fun rs => some (r :: rs)

/-- Modelled from the spec (section 4.3, used only for comparison in a
correction): the spec's words for track-number normalization, "strip
everything from the first `/` onward". -/
def stripFromFirstSlashSpec (s : String) : String :=
  String.mk (s.data.takeWhile (fun c => c != '/'))

/-! ### Helper lemmas -/

theorem lookup_append_left {α β : Type} [BEq α] (l1 l2 : List (α × β)) (a : α)
    (v : β) (h : l1.lookup a = some v) : (l1 ++ l2).lookup a = some v := by
  induction l1 with
  | nil => simp at h
  | cons p rest ih =>
    obtain ⟨k, b⟩ := p
    rw [List.lookup_cons] at h
    show List.lookup a ((k, b) :: (rest ++ l2)) = some v
    rw [List.lookup_cons]
    cases hk : a == k with
    | true => rw [hk] at h; simpa using h
    | false => rw [hk] at h; exact ih h

theorem lookup_append_right {α β : Type} [BEq α] (l1 l2 : List (α × β)) (a : α)
    (h : l1.lookup a = none) : (l1 ++ l2).lookup a = l2.lookup a := by
  induction l1 with
  | nil => simp
  | cons p rest ih =>
    obtain ⟨k, b⟩ := p
    rw [List.lookup_cons] at h
    show List.lookup a ((k, b) :: (rest ++ l2)) = List.lookup a l2
    rw [List.lookup_cons]
    cases hk : a == k with
    | true => rw [hk] at h; simp at h
    | false => rw [hk] at h; exact ih h

theorem lookup_eq_none_of_not_mem {α β : Type} [BEq α] [LawfulBEq α]
    (l : List (α × β)) (a : α) (h : a ∉ l.map Prod.fst) : l.lookup a = none := by
  induction l with
  | nil => simp
  | cons p rest ih =>
    obtain ⟨k, b⟩ := p
    simp only [List.map_cons, List.mem_cons, not_or] at h
    rw [List.lookup_cons]
    have hk : (a == k) = false := by
      simp only [beq_eq_false_iff_ne]
      exact h.1
    rw [hk]
    exact ih h.2

theorem processSingleTag_of_absent (tags : List (String × List String))
    (t : String) (h : tags.lookup t = none) :
    processSingleTag tags t = some (MISSING_TAG_PLACEHOLDER, true) := by
  simp [processSingleTag, h]

theorem processSingleTag_tracknumber (tags : List (String × List String))
    (v : String) (vs : List String)
    (h : tags.lookup TAG_TRACK_NUMBER = some (v :: vs)) :
    processSingleTag tags TAG_TRACK_NUMBER = some (prxTracksTotalSub v, false) := by
  simp [processSingleTag, h]

theorem processSingleTag_other (tags : List (String × List String))
    (t : String) (vs : List String) (ht : t ≠ TAG_TRACK_NUMBER)
    (h : tags.lookup t = some vs) :
    processSingleTag tags t = some (sepJoin (vs.map fixTagPart), false) := by
  simp [processSingleTag, h, ht]

theorem processSingleTag_missing_flag (tags : List (String × List String))
    (t : String) (vb : String × Bool) (h : processSingleTag tags t = some vb) :
    vb.2 = (tags.lookup t).isNone := by
  cases hl : tags.lookup t with
  | none =>
    rw [processSingleTag_of_absent tags t hl] at h
    injection h with h2
    subst h2
    rfl
  | some vs =>
    by_cases ht : t = TAG_TRACK_NUMBER
    · subst ht
      cases vs with
      | nil =>
        rw [show processSingleTag tags TAG_TRACK_NUMBER = none from by
          simp [processSingleTag, hl]] at h
        simp at h
      | cons f r =>
        rw [processSingleTag_tracknumber tags f r hl] at h
        injection h with h2
        subst h2
        rfl
    · rw [processSingleTag_other tags t vs ht hl] at h
      injection h with h2
      subst h2
      rfl

theorem requiredTagsLoop_spec (tags : List (String × List String)) :
    ∀ (l : List String) (outs : List (String × String)) (miss : List String),
      requiredTagsLoop tags l = some (outs, miss) →
      outs.map Prod.fst = l
      ∧ miss = l.filter (fun t => (tags.lookup t).isNone)
      ∧ ∀ t vb, t ∈ l → processSingleTag tags t = some vb →
          outs.lookup t = some vb.1 := by
  intro l
  induction l with
  | nil =>
    intro outs miss h
    simp only [requiredTagsLoop, Option.some.injEq, Prod.mk.injEq] at h
    obtain ⟨h1, h2⟩ := h
    subst h1; subst h2
    simp
  | cons t rest ih =>
    intro outs miss h
    simp only [requiredTagsLoop, Option.bind_eq_some, Option.some.injEq,
      Prod.mk.injEq] at h
    obtain ⟨vb, hvb, pr, hpr, houts, hmiss⟩ := h
    subst houts; subst hmiss
    obtain ⟨k1, k2, k3⟩ := ih pr.1 pr.2 hpr
    refine ⟨?_, ?_, ?_⟩
    · rw [List.map_cons, k1]
    · rw [k2, List.filter_cons]
      have hflag := processSingleTag_missing_flag tags t vb hvb
      cases hcase : (tags.lookup t).isNone with
      | true => simp [hflag, hcase]
      | false => simp [hflag, hcase]
    · intro t' vb' ht' hvb'
      by_cases hEq : t' = t
      · subst hEq
        have hsame : vb = vb' := by
          rw [hvb] at hvb'
          injection hvb'
        subst hsame
        rw [List.lookup_cons]
        simp
      · rw [List.lookup_cons]
        have hk : (t' == t) = false := by
          simp only [beq_eq_false_iff_ne]
          exact hEq
        rw [hk]
        have ht'' : t' ∈ rest := by
          rcases List.mem_cons.mp ht' with h | h
          · exact absurd h hEq
          · exact h
        exact k3 t' vb' ht'' hvb'

theorem normalize_spec (audio : AudioFile) (outs : List (String × String))
    (missing : List String) (h : normalize audio = some (outs, missing)) :
    outs.map Prod.fst = [TAG_TRACK_NUMBER, TAG_ARTIST, TAG_TITLE, TAG_LENGTH]
    ∧ missing = REQUIRED_TAGS.filter (fun t => (audio.tags.lookup t).isNone)
        ++ (if audio.length.isNone then [TAG_LENGTH] else [])
    ∧ (∀ t vb, t ∈ REQUIRED_TAGS → processSingleTag audio.tags t = some vb →
        outs.lookup t = some vb.1)
    ∧ (∀ s, audio.length = some s →
        outs.lookup TAG_LENGTH = some (audio_length s))
    ∧ (audio.length = none → outs.lookup TAG_LENGTH = some ELLIPSIS) := by
  simp only [normalize, Option.bind_eq_some] at h
  obtain ⟨pr, hpr, h2⟩ := h
  obtain ⟨k1, k2, k3⟩ := requiredTagsLoop_spec audio.tags REQUIRED_TAGS pr.1 pr.2 hpr
  have hlenNone : pr.1.lookup TAG_LENGTH = none := by
    apply lookup_eq_none_of_not_mem
    rw [k1]
    decide
  cases hl : audio.length with
  | some seconds =>
    rw [hl] at h2
    simp only [Option.some.injEq, Prod.mk.injEq] at h2
    obtain ⟨houts, hmiss⟩ := h2
    subst houts; subst hmiss
    refine ⟨?_, ?_, ?_, ?_, ?_⟩
    · rw [List.map_append, k1]
      rfl
    · rw [k2]
      simp
    · intro t vb ht hvb
      exact lookup_append_left _ _ _ _ (k3 t vb ht hvb)
    · intro s hs
      injection hs with hs2
      subst hs2
      rw [lookup_append_right _ _ _ hlenNone]
      simp
    · intro hnone
      exact absurd hnone (by simp)
  | none =>
    rw [hl] at h2
    simp only [Option.some.injEq, Prod.mk.injEq] at h2
    obtain ⟨houts, hmiss⟩ := h2
    subst houts; subst hmiss
    refine ⟨?_, ?_, ?_, ?_, ?_⟩
    · rw [List.map_append, k1]
      rfl
    · rw [k2]
      simp
    · intro t vb ht hvb
      exact lookup_append_left _ _ _ _ (k3 t vb ht hvb)
    · intro s hs
      exact absurd hs (by simp)
    · intro _
      rw [lookup_append_right _ _ _ hlenNone]
      simp

theorem fsTrackFormat_eq_some (d : List (String × String)) (tr ti ar le : String)
    (h1 : d.lookup TAG_TRACK_NUMBER = some tr) (h2 : d.lookup TAG_TITLE = some ti)
    (h3 : d.lookup TAG_ARTIST = some ar) (h4 : d.lookup TAG_LENGTH = some le) :
    fsTrackFormat d = some (tr ++ ". " ++ ti ++ " – " ++ ar ++ " (" ++ le ++ ")") := by
  simp [fsTrackFormat, h1, h2, h3, h4]

theorem tracksTotalAux_true_of_no_newline (l : List Char)
    (h : ∀ c ∈ l, c ≠ '\n') : tracksTotalAux true l = [] := by
  induction l with
  | nil => rfl
  | cons c rest ih =>
    have hc : c ≠ '\n' := h c (by simp)
    simp only [tracksTotalAux, if_pos rfl, if_neg hc]
    exact ih fun x hx => h x (by simp [hx])

theorem tracksTotalAux_false_of_no_newline (l : List Char)
    (h : ∀ c ∈ l, c ≠ '\n') :
    tracksTotalAux false l = l.takeWhile (fun c => c != '/') := by
  induction l with
  | nil => rfl
  | cons c rest ih =>
    have hrest : ∀ x ∈ rest, x ≠ '\n' := fun x hx => h x (by simp [hx])
    by_cases hc : c = '/'
    · subst hc
      simp only [tracksTotalAux, if_neg (by decide : ¬ false = true), if_pos rfl,
        List.takeWhile_cons]
      rw [tracksTotalAux_true_of_no_newline rest hrest]
      simp
    · simp only [tracksTotalAux, if_neg (by decide : ¬ false = true), if_neg hc,
        List.takeWhile_cons]
      have : (c != '/') = true := by simp [hc]
      rw [this, ih hrest]
      simp

theorem prxGlobMagicSub_join (l : List Char) :
    prxGlobMagicSub l =
      (l.map (fun c => if isGlobMagic c then ['[', c, ']'] else [c])).flatten := by
  induction l with
  | nil => rfl
  | cons c rest ih =>
    cases hc : isGlobMagic c <;> simp [prxGlobMagicSub, hc, ih]

theorem print_file_tracklist_ok (inp : PathInput) (audio : AudioFile)
    (outs : List (String × String)) (missing : List String) (line : String)
    (hopen : inp.opened = Except.ok audio)
    (hnorm : normalize audio = some (outs, missing))
    (hfmt : fsTrackFormat outs = some line) :
    print_file_tracklist inp =
      some ((if missing.isEmpty then []
             else [LogEntry.warningMissing (shortenedFilename inp.path) missing]),
        some line) := by
  simp [print_file_tracklist, hopen, hnorm, hfmt]

theorem lookup_isSome_of_mem {α β : Type} [BEq α] [LawfulBEq α]
    (l : List (α × β)) (a : α) (h : a ∈ l.map Prod.fst) :
    ∃ v, l.lookup a = some v := by
  induction l with
  | nil => simp at h
  | cons p rest ih =>
    obtain ⟨k, b⟩ := p
    rw [List.lookup_cons]
    by_cases hEq : a = k
    · subst hEq
      simp
    · have hk : (a == k) = false := by
        simp only [beq_eq_false_iff_ne]
        exact hEq
      rw [hk]
      apply ih
      simp only [List.map_cons, List.mem_cons] at h
      rcases h with h | h
      · exact absurd h hEq
      · exact h

/-! ### Claim theorems -/

/-- Claim C1, counterexample to the claim as stated: an ARTIST tag that
is present but has zero values yields the empty string — not the
placeholder — and ARTIST is not recorded in the missing-tags report. -/
theorem required_tag_missing_cex :
    normalize ⟨[(TAG_TRACK_NUMBER, ["1"]), (TAG_ARTIST, []), (TAG_TITLE, ["T"])],
        some 61⟩
      = some ([(TAG_TRACK_NUMBER, "1"), (TAG_ARTIST, EMPTY), (TAG_TITLE, "T"),
          (TAG_LENGTH, "01:01")], [])
    ∧ EMPTY ≠ MISSING_TAG_PLACEHOLDER := by
  decide

/-- Claim C1 (amended): for every required tag, if the tag key is absent
from the raw mapping, the normalized field is the placeholder and the tag
is recorded in the missing-tags report; if the key is present (and
normalization completes), the tag is not recorded as missing and the
field is the value computed by the per-tag processing step. -/
theorem required_tag_missing_handling (audio : AudioFile)
    (outs : List (String × String)) (missing : List String)
    (hnorm : normalize audio = some (outs, missing))
    (t : String) (ht : t ∈ REQUIRED_TAGS) :
    (audio.tags.lookup t = none →
      outs.lookup t = some MISSING_TAG_PLACEHOLDER ∧ t ∈ missing)
    ∧ (∀ vs, audio.tags.lookup t = some vs →
      t ∉ missing
      ∧ ∀ vb, processSingleTag audio.tags t = some vb →
          outs.lookup t = some vb.1) := by
  obtain ⟨k1, k2, k3, k4, k5⟩ := normalize_spec audio outs missing hnorm
  have hne : t ≠ TAG_LENGTH := by
    intro hEq
    rw [hEq] at ht
    revert ht
    decide
  constructor
  · intro habs
    refine ⟨?_, ?_⟩
    · exact k3 t _ ht (processSingleTag_of_absent audio.tags t habs)
    · rw [k2]
      apply List.mem_append_left
      rw [List.mem_filter]
      exact ⟨ht, by simp [habs]⟩
  · intro vs hvs
    refine ⟨?_, ?_⟩
    · rw [k2]
      intro hmem
      rcases List.mem_append.mp hmem with hmem | hmem
      · rw [List.mem_filter, hvs] at hmem
        simp at hmem
      · split at hmem
        · simp only [List.mem_singleton] at hmem
          exact hne hmem
        · simp at hmem
    · intro vb hvb
      exact k3 t vb ht hvb

/-- Claim C1 witness: a file with no ARTIST entry gets the placeholder
as its artist field and ARTIST in the missing-tags report. -/
theorem required_tag_missing_handling_witness :
    List.lookup TAG_ARTIST
        [(TAG_TRACK_NUMBER, "7"), (TAG_ARTIST, MISSING_TAG_PLACEHOLDER),
          (TAG_TITLE, "Song"), (TAG_LENGTH, "02:05")]
      = some MISSING_TAG_PLACEHOLDER
    ∧ TAG_ARTIST ∈ [TAG_ARTIST] :=
  (required_tag_missing_handling
    ⟨[(TAG_TRACK_NUMBER, ["7"]), (TAG_TITLE, ["Song"])], some 125⟩
    [(TAG_TRACK_NUMBER, "7"), (TAG_ARTIST, MISSING_TAG_PLACEHOLDER),
      (TAG_TITLE, "Song"), (TAG_LENGTH, "02:05")]
    [TAG_ARTIST] (by decide) TAG_ARTIST (by decide)).1 (by decide)

/-- Claim C2: every field mapping produced by normalization binds exactly
the four keys TRACKNUMBER, ARTIST, TITLE, length, in that order, each to
one display string; an absent required tag gets the placeholder and an
absent duration the ellipsis. -/
theorem normalized_fields_all_keys (audio : AudioFile)
    (outs : List (String × String)) (missing : List String)
    (hnorm : normalize audio = some (outs, missing)) :
    outs.map Prod.fst = [TAG_TRACK_NUMBER, TAG_ARTIST, TAG_TITLE, TAG_LENGTH]
    ∧ (∀ t, t ∈ REQUIRED_TAGS → audio.tags.lookup t = none →
        outs.lookup t = some MISSING_TAG_PLACEHOLDER)
    ∧ (audio.length = none → outs.lookup TAG_LENGTH = some ELLIPSIS) := by
  obtain ⟨k1, k2, k3, k4, k5⟩ := normalize_spec audio outs missing hnorm
  exact ⟨k1, fun t ht habs => k3 t _ ht (processSingleTag_of_absent audio.tags t habs),
    k5⟩

/-- Claim C2 witness: a file with all three required tags but no
duration yields a mapping with all four keys in order. -/
theorem normalized_fields_all_keys_witness :
    List.map Prod.fst
        [(TAG_TRACK_NUMBER, "4"), (TAG_ARTIST, "X"), (TAG_TITLE, "Y"),
          (TAG_LENGTH, ELLIPSIS)]
      = [TAG_TRACK_NUMBER, TAG_ARTIST, TAG_TITLE, TAG_LENGTH] :=
  (normalized_fields_all_keys
    ⟨[(TAG_TRACK_NUMBER, ["4"]), (TAG_ARTIST, ["X"]), (TAG_TITLE, ["Y"])], none⟩
    [(TAG_TRACK_NUMBER, "4"), (TAG_ARTIST, "X"), (TAG_TITLE, "Y"),
      (TAG_LENGTH, ELLIPSIS)]
    [TAG_LENGTH] (by decide)).1

/-- Claim C3: for a present ARTIST or TITLE tag the normalized field is
the raw values each sent through the latin-1 re-encode / UTF-8 re-decode
repair, kept unchanged when the repair does not apply, joined with the
separator " / " in their original order. -/
theorem artist_title_encoding_repair (audio : AudioFile)
    (outs : List (String × String)) (missing : List String)
    (hnorm : normalize audio = some (outs, missing))
    (t : String) (ht : t = TAG_ARTIST ∨ t = TAG_TITLE)
    (vs : List String) (hvs : audio.tags.lookup t = some vs) :
    outs.lookup t = some (sepJoin (vs.map fixTagPart))
    ∧ (∀ v w, avoid_latin_1 v = some w → fixTagPart v = w)
    ∧ (∀ v, avoid_latin_1 v = none → fixTagPart v = v) := by
  obtain ⟨k1, k2, k3, k4, k5⟩ := normalize_spec audio outs missing hnorm
  have htR : t ∈ REQUIRED_TAGS := by rcases ht with rfl | rfl <;> decide
  have hne : t ≠ TAG_TRACK_NUMBER := by rcases ht with rfl | rfl <;> decide
  refine ⟨?_, ?_, ?_⟩
  · exact k3 t _ htR (processSingleTag_other audio.tags t vs hne hvs)
  · intro v w hw
    simp [fixTagPart, hw]
  · intro v hv
    simp [fixTagPart, hv]

/-- Claim C3 witness: the mis-decoded value is repaired, the
already-correct value is kept, and both are joined with " / ". -/
theorem artist_title_encoding_repair_witness :
    List.lookup TAG_ARTIST
        [(TAG_TRACK_NUMBER, "1"), (TAG_ARTIST, "é / über"), (TAG_TITLE, "T"),
          (TAG_LENGTH, "00:00")]
      = some (sepJoin (["Ã©", "über"].map fixTagPart)) :=
  (artist_title_encoding_repair
    ⟨[(TAG_TRACK_NUMBER, ["1"]), (TAG_ARTIST, ["Ã©", "über"]), (TAG_TITLE, ["T"])],
      some 0⟩
    [(TAG_TRACK_NUMBER, "1"), (TAG_ARTIST, "é / über"), (TAG_TITLE, "T"),
      (TAG_LENGTH, "00:00")]
    [] (by decide) TAG_ARTIST (Or.inl rfl) ["Ã©", "über"] (by decide)).1

/-- Claim C4: an available duration is rendered as zero-padded
minutes:seconds with minutes the duration divided by 60 and seconds the
remainder; the spec examples hold; a missing duration gives the ellipsis
and records length as missing. -/
theorem audio_length_handling (audio : AudioFile)
    (outs : List (String × String)) (missing : List String)
    (hnorm : normalize audio = some (outs, missing)) :
    (∀ s, audio.length = some s →
      outs.lookup TAG_LENGTH
        = some (format02d (s / 60) ++ ":" ++ format02d (s % 60)))
    ∧ (audio.length = none →
      outs.lookup TAG_LENGTH = some ELLIPSIS ∧ TAG_LENGTH ∈ missing)
    ∧ audio_length 125 = "02:05" ∧ audio_length 59 = "00:59"
    ∧ audio_length 3600 = "60:00" := by
  obtain ⟨k1, k2, k3, k4, k5⟩ := normalize_spec audio outs missing hnorm
  refine ⟨?_, ?_, by decide, by decide, by decide⟩
  · intro s hs
    have hres := k4 s hs
    simpa [audio_length, SECONDS_PER_MINUTE] using hres
  · intro hnone
    refine ⟨k5 hnone, ?_⟩
    rw [k2]
    apply List.mem_append_right
    simp [hnone]

/-- Claim C4 witness: a 125-second track gets the length field 02:05. -/
theorem audio_length_handling_witness :
    List.lookup TAG_LENGTH
        [(TAG_TRACK_NUMBER, "1"), (TAG_ARTIST, "A"), (TAG_TITLE, "B"),
          (TAG_LENGTH, "02:05")]
      = some (format02d (125 / 60) ++ ":" ++ format02d (125 % 60)) :=
  (audio_length_handling
    ⟨[(TAG_TRACK_NUMBER, ["1"]), (TAG_ARTIST, ["A"]), (TAG_TITLE, ["B"])], some 125⟩
    [(TAG_TRACK_NUMBER, "1"), (TAG_ARTIST, "A"), (TAG_TITLE, "B"),
      (TAG_LENGTH, "02:05")]
    [] (by decide)).1 125 rfl

/-- Claim C5, counterexample to the claim as stated: the regex removes,
per line, from the first slash to the end of that line, so a first value
containing a newline after a slash is not everything-up-to-the-first-slash. -/
theorem tracknumber_strip_cex :
    normalize ⟨[(TAG_TRACK_NUMBER, ["1/2\n3"]), (TAG_ARTIST, ["A"]),
        (TAG_TITLE, ["T"])], some 0⟩
      = some ([(TAG_TRACK_NUMBER, "1\n3"), (TAG_ARTIST, "A"), (TAG_TITLE, "T"),
          (TAG_LENGTH, "00:00")], [])
    ∧ stripFromFirstSlashSpec "1/2\n3" = "1"
    ∧ ("1\n3" : String) ≠ "1" := by
  decide

/-- Claim C5 (amended): for a TRACKNUMBER tag with at least one value,
the field is the first value with, in each line, everything from that
line's first slash to the end of the line removed; when the first value
contains no newline this equals everything up to its first slash; only
the first value determines the field. -/
theorem tracknumber_strip_handling (audio : AudioFile)
    (outs : List (String × String)) (missing : List String)
    (hnorm : normalize audio = some (outs, missing))
    (v : String) (vs : List String)
    (hv : audio.tags.lookup TAG_TRACK_NUMBER = some (v :: vs)) :
    outs.lookup TAG_TRACK_NUMBER = some (prxTracksTotalSub v)
    ∧ ((∀ c ∈ v.data, c ≠ '\n') →
      prxTracksTotalSub v = stripFromFirstSlashSpec v) := by
  obtain ⟨k1, k2, k3, k4, k5⟩ := normalize_spec audio outs missing hnorm
  refine ⟨?_, ?_⟩
  · exact k3 _ _ (by decide) (processSingleTag_tracknumber audio.tags v vs hv)
  · intro hnl
    unfold prxTracksTotalSub stripFromFirstSlashSpec
    rw [tracksTotalAux_false_of_no_newline v.data hnl]

/-- Claim C5 witness: "3/12" normalizes to "3" and the second raw value
is ignored. -/
theorem tracknumber_strip_handling_witness :
    List.lookup TAG_TRACK_NUMBER
        [(TAG_TRACK_NUMBER, "3"), (TAG_ARTIST, "A"), (TAG_TITLE, "S"),
          (TAG_LENGTH, "03:05")]
      = some (prxTracksTotalSub "3/12") :=
  (tracknumber_strip_handling
    ⟨[(TAG_TRACK_NUMBER, ["3/12", "9"]), (TAG_ARTIST, ["A"]), (TAG_TITLE, ["S"])],
      some 185⟩
    [(TAG_TRACK_NUMBER, "3"), (TAG_ARTIST, "A"), (TAG_TITLE, "S"),
      (TAG_LENGTH, "03:05")]
    [] (by decide) "3/12" ["9"] (by decide)).1

/-- Claim C6: when the metadata reader fails on a path, the program logs
the error message, logs the informational unsupported-type note exactly
when the path is a regular file, prints no line, and the run continues
with the remaining paths — the failure is never fatal. -/
theorem unreadable_file_handling (inp : PathInput) (msg : String)
    (hopen : inp.opened = Except.error msg) :
    print_file_tracklist inp =
      some (LogEntry.logError msg ::
        (if inp.isFile then [LogEntry.infoUnsupported (shortenedFilename inp.path)]
         else []), none)
    ∧ ∀ rest, processPaths (inp :: rest) =
        (processPaths rest).map (fun rs =>
          (LogEntry.logError msg ::
            (if inp.isFile then
              [LogEntry.infoUnsupported (shortenedFilename inp.path)]
             else []), none) :: rs) := by
  have h1 : print_file_tracklist inp =
      some (LogEntry.logError msg ::
        (if inp.isFile then [LogEntry.infoUnsupported (shortenedFilename inp.path)]
         else []), none) := by
    simp [print_file_tracklist, hopen]
  refine ⟨h1, ?_⟩
  intro rest
  show (print_file_tracklist inp).bind _ = _
  rw [h1]
  cases processPaths rest <;> rfl

/-- Claim C6 witness: an unreadable regular file produces the error log,
the unsupported-type note and no printed line. -/
theorem unreadable_file_handling_witness :
    print_file_tracklist ⟨"x/y.txt", Except.error "read failed", true⟩ =
      some (LogEntry.logError "read failed" ::
        (if true then [LogEntry.infoUnsupported (shortenedFilename "x/y.txt")]
         else []), none) :=
  (unreadable_file_handling ⟨"x/y.txt", Except.error "read failed", true⟩
    "read failed" rfl).1

/-- Claim C7: the missing-tags report is, in the fixed order
TRACKNUMBER, ARTIST, TITLE, length, exactly those fields that were
absent, and a warning naming the file and the missing tags is logged if
and only if the report is non-empty. -/
theorem missing_tags_report (inp : PathInput) (audio : AudioFile)
    (outs : List (String × String)) (missing : List String)
    (hopen : inp.opened = Except.ok audio)
    (hnorm : normalize audio = some (outs, missing)) :
    missing.Sublist [TAG_TRACK_NUMBER, TAG_ARTIST, TAG_TITLE, TAG_LENGTH]
    ∧ (∀ t, t ∈ missing ↔
        ((t ∈ REQUIRED_TAGS ∧ audio.tags.lookup t = none)
          ∨ (t = TAG_LENGTH ∧ audio.length = none)))
    ∧ ∀ logs line, print_file_tracklist inp = some (logs, line) →
        ((∃ s, LogEntry.warningMissing s missing ∈ logs) ↔ missing ≠ []) := by
  obtain ⟨k1, k2, k3, k4, k5⟩ := normalize_spec audio outs missing hnorm
  refine ⟨?_, ?_, ?_⟩
  · rw [k2]
    show List.Sublist _ (REQUIRED_TAGS ++ [TAG_LENGTH])
    apply List.Sublist.append (List.filter_sublist _)
    cases audio.length.isNone
    · simp
    · simp
  · intro t
    rw [k2]
    cases hL : audio.length with
    | some s => simp [List.mem_filter, Option.isNone_iff_eq_none, hL]
    | none => simp [List.mem_filter, Option.isNone_iff_eq_none, hL]
  · intro logs line hrun
    obtain ⟨tr, htr⟩ := lookup_isSome_of_mem outs TAG_TRACK_NUMBER
      (by rw [k1]; decide)
    obtain ⟨ti, hti⟩ := lookup_isSome_of_mem outs TAG_TITLE (by rw [k1]; decide)
    obtain ⟨ar, har⟩ := lookup_isSome_of_mem outs TAG_ARTIST (by rw [k1]; decide)
    obtain ⟨le, hle⟩ := lookup_isSome_of_mem outs TAG_LENGTH (by rw [k1]; decide)
    have hfmt := fsTrackFormat_eq_some outs tr ti ar le htr hti har hle
    have hprint := print_file_tracklist_ok inp audio outs missing _ hopen hnorm hfmt
    rw [hprint] at hrun
    simp only [Option.some.injEq, Prod.mk.injEq] at hrun
    obtain ⟨hlogs, hline⟩ := hrun
    subst hlogs
    constructor
    · rintro ⟨s, hs⟩ hnil
      rw [hnil] at hs
      simp at hs
    · intro hne
      have hEmp : missing.isEmpty = false := by
        cases missing with
        | nil => exact absurd rfl hne
        | cons a l => rfl
      refine ⟨shortenedFilename inp.path, ?_⟩
      simp [hEmp]

/-- Claim C7 witness: a file missing only TITLE reports exactly TITLE,
a sublist of the fixed tag order. -/
theorem missing_tags_report_witness :
    List.Sublist [TAG_TITLE]
      [TAG_TRACK_NUMBER, TAG_ARTIST, TAG_TITLE, TAG_LENGTH] :=
  (missing_tags_report
    ⟨"a/b.mp3", Except.ok ⟨[(TAG_TRACK_NUMBER, ["7"]), (TAG_ARTIST, ["X"])],
      some 10⟩, true⟩
    ⟨[(TAG_TRACK_NUMBER, ["7"]), (TAG_ARTIST, ["X"])], some 10⟩
    [(TAG_TRACK_NUMBER, "7"), (TAG_ARTIST, "X"), (TAG_TITLE, MISSING_TAG_PLACEHOLDER),
      (TAG_LENGTH, "00:10")]
    [TAG_TITLE] rfl (by decide)).1

/-- Claim C8: the output line is exactly track, period and space, title,
en-dash, artist, and the length in parentheses — title before artist —
and formatting is a pure function of the field mapping. -/
theorem fs_track_line_format (d : List (String × String)) (tr ti ar le : String)
    (h1 : d.lookup TAG_TRACK_NUMBER = some tr) (h2 : d.lookup TAG_TITLE = some ti)
    (h3 : d.lookup TAG_ARTIST = some ar) (h4 : d.lookup TAG_LENGTH = some le) :
    fsTrackFormat d = some (tr ++ ". " ++ ti ++ " – " ++ ar ++ " (" ++ le ++ ")")
    ∧ ∀ d' : List (String × String), d' = d → fsTrackFormat d' = fsTrackFormat d :=
  ⟨fsTrackFormat_eq_some d tr ti ar le h1 h2 h3 h4, fun _ h => by rw [h]⟩

/-- Claim C8 witness: a concrete mapping renders with title before
artist and the length parenthesized. -/
theorem fs_track_line_format_witness :
    fsTrackFormat [(TAG_TRACK_NUMBER, "1"), (TAG_ARTIST, "B"), (TAG_TITLE, "S"),
        (TAG_LENGTH, "00:09")]
      = some ("1" ++ ". " ++ "S" ++ " – " ++ "B" ++ " (" ++ "00:09" ++ ")") :=
  (fs_track_line_format
    [(TAG_TRACK_NUMBER, "1"), (TAG_ARTIST, "B"), (TAG_TITLE, "S"),
      (TAG_LENGTH, "00:09")]
    "1" "S" "B" "00:09" (by decide) (by decide) (by decide) (by decide)).1

/-- Claim C9: escaping splits the path with the platform splitdrive,
returns the drive part unaltered, and in the remainder wraps each
occurrence of exactly the characters star, question mark and opening
square bracket in a single-character set containing only itself; the
transform is total on strings. -/
theorem escape_for_glob_spec (splitdrive : String → String × String)
    (pathname : String) :
    escape_for_glob splitdrive pathname =
      (splitdrive pathname).1 ++
        String.mk (((splitdrive pathname).2.data.map
          (fun c => if isGlobMagic c then ['[', c, ']'] else [c])).flatten)
    ∧ (∀ c : Char, isGlobMagic c = true ↔ (c = '*' ∨ c = '?' ∨ c = '['))
    ∧ escape_for_glob (fun p => (EMPTY, p)) "a*b?c[d" = "a[*]b[?]c[[]d" := by
  refine ⟨?_, ?_, by decide⟩
  · show (splitdrive pathname).1
        ++ String.mk (prxGlobMagicSub (splitdrive pathname).2.data) = _
    rw [prxGlobMagicSub_join]
  · intro c
    simp [isGlobMagic, or_assoc]

/-- Claim C10: a TRACKNUMBER tag that is present but has an empty value
list makes per-file processing fail with an uncaught exception from the
unguarded first-index access: no placeholder is substituted and no line
is printed. -/
theorem tracknumber_empty_values_crash :
    processSingleTag [(TAG_TRACK_NUMBER, [])] TAG_TRACK_NUMBER = none
    ∧ normalize ⟨[(TAG_TRACK_NUMBER, [])], some 100⟩ = none
    ∧ print_file_tracklist
        ⟨"dir/file.mp3", Except.ok ⟨[(TAG_TRACK_NUMBER, [])], some 100⟩, true⟩
      = none :=
  ⟨rfl, rfl, rfl⟩

end TrackParsers
